import Mathlib

/-!
Shallow embedding of the Harmonizome CLI downloader core
(`harmonizome_cli.py`): dataset-selector parsing, downloadable-token
expansion, job compilation, the fetch worker, the scheduler and the
exit-status contract of the `download` command.

Modelling conventions:
* Python strings are Lean `String`s; raw byte streams are `List Nat`.
* The filesystem is a pair of an association list from paths (lists of
  path components) to file data, and the list of created directories.
* The effectful steps of `download_one` that can raise exceptions in
  Python — the HTTP request (`session.get`), the streaming
  gzip/UTF-8 decode loop, and the chunked binary write loop — are
  oracles packaged in an `Env` record.  An oracle returning an
  `Except.error` models the corresponding exception; the error value
  carries `str(e)` and, for the two streaming loops, whatever data had
  already been written to the (freshly created) target file when the
  exception fired.
* The thread pool (`ThreadPoolExecutor`) runs jobs that only share the
  HTTP session; the batch is modelled as sequential execution of the
  compiled job list in submission order.
-/

/-- The dataset short-key registry `DATASET_MAP` (key, human-readable name). -/
def DATASET_MAP : List (String × String) := [
  ("gtextissue", "GTEx Tissue Gene Expression Profiles"),
  ("gtexsample", "GTEx Tissue Sample Gene Expression Profiles"),
  ("gtexeqtl", "GTEx eQTL"),
  ("biogrid", "BioGRID Protein-Protein Interactions"),
  ("encodetf", "ENCODE Transcription Factor Binding Site Profiles"),
  ("encodehm", "ENCODE Histone Modification Site Profiles"),
  ("reactome", "Reactome Pathways"),
  ("reactomeppi", "Reactome Biomolecular Interactions"),
  ("kegg", "KEGG Pathways"),
  ("keggppi", "KEGG Biomolecular Interactions"),
  ("hpatissuesmrna", "HPA Tissue Gene Expression Profiles"),
  ("hpasamples", "HPA Tissue Sample Gene Expression Profiles"),
  ("hprd", "HPRD Protein-Protein Interactions"),
  ("omim", "OMIM Gene-Disease Associations"),
  ("hpo", "HPO Gene-Disease Associations"),
  ("gdsc", "GDSC Cell Line Gene Expression Profiles"),
  ("tcga", "TCGA Signatures of Differentially Expressed Genes for Tumors"),
  ("jasparpwm", "JASPAR Predicted Transcription Factor Targets"),
  ("targetscan", "TargetScan Predicted Conserved microRNA Targets")]

/-- The built-in registry of common downloadables `ALL_DOWNLOADABLES`. -/
def ALL_DOWNLOADABLES : List String := [
  "gene_attribute_matrix.txt.gz",
  "gene_attribute_edges.txt.gz",
  "gene_set_library_crisp.txt.gz",
  "gene_set_library_up_crisp.txt.gz",
  "gene_set_library_dn_crisp.txt.gz",
  "attribute_set_library_crisp.txt.gz",
  "attribute_set_library_up_crisp.txt.gz",
  "attribute_set_library_dn_crisp.txt.gz",
  "gene_similarity_matrix_cosine.txt.gz",
  "attribute_similarity_matrix_cosine.txt.gz",
  "gene_list_terms.txt.gz",
  "attribute_list_entries.txt.gz",
  "processing_script.m"]

/-- `BASE_URL` of the remote static file server. -/
def BASE_URL : String := "https://maayanlab.cloud/static/hdfs/harmonizome/data"

/-- `build_url(dataset_path, downloadable)`. -/
def build_url (dataset_path downloadable : String) : String :=
  BASE_URL ++ "/" ++ dataset_path ++ "/" ++ downloadable

/-- Python `s.lower()` (ASCII case folding, which covers the `"all"` sentinel). -/
def pyLower (s : String) : String := String.mk (s.toList.map Char.toLower)

/-- Python `s.endswith(suf)`. -/
def pyEndsWith (s suf : String) : Bool :=
  s.toList.reverse.take suf.toList.length == suf.toList.reverse

/-- Python `s[:-n]`. -/
def pyDropRight (s : String) (n : Nat) : String :=
  String.mk (s.toList.take (s.toList.length - n))

/-- Python `str.strip()` on a character list (whitespace per `Char.isWhitespace`). -/
def stripList (cs : List Char) : List Char :=
  ((cs.dropWhile Char.isWhitespace).reverse.dropWhile Char.isWhitespace).reverse

/-- Python `s.strip()`. -/
def pyStrip (s : String) : String := String.mk (stripList s.toList)

/-- Python `c in s` for a single character. -/
def hasChar (c : Char) : List Char → Bool
  | [] => false
  | d :: rest => if d = c then true else hasChar c rest

/-- Python `s.split(sep, 1)`: the part before the first occurrence of
`sep` and the part after it (whole string and empty when absent,
but the worker only calls it when `sep` occurs). -/
def splitOnce (sep : Char) : List Char → List Char × List Char
  | [] => ([], [])
  | c :: cs =>
    if c = sep then ([], cs)
    else ((c :: (splitOnce sep cs).1), (splitOnce sep cs).2)

/-- Python dict lookup `m[k]` / `k in m` over the registry association list. -/
def mapLookup (k : String) : List (String × String) → Option String
  | [] => none
  | (k', v) :: rest => if k' = k then some v else mapLookup k rest

/-- `parse_dataset_item(s)`: tab split, then `=` split, then registry
lookup of the stripped token, else the stripped token doubled. -/
def parse_dataset_item (s : String) : String × String :=
  if hasChar '\t' s.toList then
    (pyStrip (String.mk (splitOnce '\t' s.toList).1),
     pyStrip (String.mk (splitOnce '\t' s.toList).2))
  else if hasChar '=' s.toList then
    (pyStrip (String.mk (splitOnce '=' s.toList).1),
     pyStrip (String.mk (splitOnce '=' s.toList).2))
  else
    match mapLookup (pyStrip s) DATASET_MAP with
    | some nm => (nm, pyStrip s)
    | none => (pyStrip s, pyStrip s)

/-- The `seen`/`uniq` de-duplication loop at the end of
`flatten_downloadables` (keeps the first occurrence of each string). -/
def dedup_loop (seen uniq : List String) : List String → List String
  | [] => uniq
  | x :: rest =>
    if x ∈ seen then dedup_loop seen uniq rest
    else dedup_loop (x :: seen) (uniq ++ [x]) rest

/-- `flatten_downloadables(tokens)`: replace each case-insensitive
`"all"` with the registry, then de-duplicate preserving order. -/
def flatten_downloadables (tokens : List String) : List String :=
  dedup_loop [] []
    (tokens.foldl
      (fun acc t => if pyLower t = "all" then acc ++ ALL_DOWNLOADABLES else acc ++ [t]) [])

/-- Specification-side de-duplication: keep the first occurrence of
each element, drop the later ones. -/
def dedup_first {α : Type} [BEq α] : List α → List α
  | [] => []
  | x :: rest => x :: (dedup_first rest).filter (fun y => !(y == x))

/-- Contents of a file on disk: raw bytes or decoded text. -/
inductive FileData where
  | bin : List Nat → FileData
  | text : String → FileData
deriving DecidableEq

/-- The local filesystem: files (path ↦ data) and created directories. -/
structure FS where
  files : List (List String × FileData)
  dirs : List (List String)
deriving DecidableEq

/-- Association-list lookup over the file table. -/
def lookupA : List (List String × FileData) → List String → Option FileData
  | [], _ => none
  | (k, v) :: rest, p => if k = p then some v else lookupA rest p

/-- Association-list update (create or truncate-and-overwrite). -/
def writeA : List (List String × FileData) → List String → FileData → List (List String × FileData)
  | [], p, c => [(p, c)]
  | (k, v) :: rest, p, c => if k = p then (k, c) :: rest else (k, v) :: writeA rest p c

/-- `target.exists()`-style lookup. -/
def lookupFile (fs : FS) (p : List String) : Option FileData := lookupA fs.files p

/-- Writing a file (`target.open("w"/"wb")` plus the write loop). -/
def writeFile (fs : FS) (p : List String) (c : FileData) : FS :=
  { fs with files := writeA fs.files p c }

/-- Record a directory if it is not present yet (`exist_ok=True`). -/
def addDir (dirs : List (List String)) (d : List String) : List (List String) :=
  if d ∈ dirs then dirs else dirs ++ [d]

/-- All ancestors of a path, shortest first (`parents=True`). -/
def dirChain (p : List String) : List (List String) :=
  (List.range p.length).map (fun i => p.take (i + 1))

/-- `ensure_dir(p)`: `p.mkdir(parents=True, exist_ok=True)`. -/
def ensure_dir (fs : FS) (p : List String) : FS :=
  { fs with dirs := (dirChain p).foldl addDir fs.dirs }

/-- An HTTP response: status code and body bytes. -/
structure HttpResp where
  status : Nat
  body : List Nat
deriving DecidableEq

/-- Oracles for the three exception-raising effects inside the worker
(see the module docstring). -/
structure Env where
  net : String → Except String HttpResp
  textStream : List Nat → Except (String × String) String
  binStream : List Nat → Except (String × List Nat) Unit

/-- One download job: `(dataset_name, dataset_path, downloadable)`. -/
structure Job where
  name : String
  path : String
  dl : String
deriving DecidableEq

/-- One worker result: the `(dataset_name, dataset_path, downloadable,
success, message)` tuple returned by `download_one`. -/
structure DLResult where
  name : String
  path : String
  dl : String
  success : Bool
  message : String
deriving DecidableEq

/-- The on-disk filename of a job: the downloadable identifier, with
`.gz` stripped when decompression is requested (`downloadable[:-3]`). -/
def targetFileName (d : Bool) (dl : String) : String :=
  if d && pyEndsWith dl ".gz" then pyDropRight dl 3 else dl

/-- The target path `outdir / dataset_name / filename` of a job. -/
def targetPath (o : List String) (d : Bool) (j : Job) : List String :=
  o ++ [j.name, targetFileName d j.dl]

/-- `download_one`: the fetch worker.  `o` = outdir, `d` = decompress,
`f` = force.  Returns the updated filesystem and the result tuple. -/
def download_one (env : Env) (o : List String) (d f : Bool) (fs : FS) (j : Job) :
    FS × DLResult :=
  let fs1 := ensure_dir fs (o ++ [j.name])
  if (lookupFile fs1 (targetPath o d j)).isSome && !f then
    (fs1, ⟨j.name, j.path, j.dl, true, "exists, skipped"⟩)
  else
    match env.net (build_url j.path j.dl) with
    | .error e => (fs1, ⟨j.name, j.path, j.dl, false, e⟩)
    | .ok resp =>
      if resp.status ≠ 200 then
        (fs1, ⟨j.name, j.path, j.dl, false, "HTTP " ++ toString resp.status⟩)
      else if d && pyEndsWith j.dl ".gz" then
        match env.textStream resp.body with
        | .ok txt =>
          (writeFile fs1 (targetPath o d j) (.text txt),
           ⟨j.name, j.path, j.dl, true, "ok"⟩)
        | .error pe =>
          (writeFile fs1 (targetPath o d j) (.text pe.1),
           ⟨j.name, j.path, j.dl, false, pe.2⟩)
      else
        match env.binStream resp.body with
        | .ok _ =>
          (writeFile fs1 (targetPath o d j) (.bin resp.body),
           ⟨j.name, j.path, j.dl, true, "ok"⟩)
        | .error ep =>
          (writeFile fs1 (targetPath o d j) (.bin ep.2),
           ⟨j.name, j.path, j.dl, false, ep.1⟩)

/-- The scheduler: run every compiled job (sequentialised submission
order), collecting one result per job. -/
def run_jobs (env : Env) (o : List String) (d f : Bool) : FS → List Job → FS × List DLResult
  | fs, [] => (fs, [])
  | fs, j :: rest =>
    ((run_jobs env o d f (download_one env o d f fs j).1 rest).1,
     (download_one env o d f fs j).2 ::
       (run_jobs env o d f (download_one env o d f fs j).1 rest).2)

/-- The job-compilation cross product of `cmd_download` (selectors
outer loop, downloadables inner loop). -/
def compileJobs : List (String × String) → List String → List Job
  | [], _ => []
  | np :: rest, ds => ds.map (fun dl => ⟨np.1, np.2, dl⟩) ++ compileJobs rest ds

/-- `cmd_download`: selector parsing, guard on empty configuration,
downloadable expansion, job compilation, the batch, and the return
status (2 = configuration error, 1 = some job failed, 0 = all ok).
`dTokens` are the raw dataset tokens (from `-d` and the datasets
file), `tTokens` the raw downloadable tokens. -/
def cmd_download (env : Env) (dTokens tTokens : List String) (o : List String)
    (d f : Bool) (fs : FS) : FS × Nat :=
  if (dTokens.map parse_dataset_item).isEmpty then (fs, 2)
  else if (flatten_downloadables tTokens).isEmpty then (fs, 2)
  else
    ((run_jobs env o d f (ensure_dir fs o)
        (compileJobs (dTokens.map parse_dataset_item) (flatten_downloadables tTokens))).1,
     if (run_jobs env o d f (ensure_dir fs o)
        (compileJobs (dTokens.map parse_dataset_item) (flatten_downloadables tTokens))).2.any
          (fun r => !r.success) then 1 else 0)

/-! ### Filesystem lemmas -/

theorem lookupA_writeA (fls : List (List String × FileData)) (q p : List String) (c : FileData) :
    lookupA (writeA fls q c) p = if q = p then some c else lookupA fls p := by
  induction fls with
  | nil => by_cases h : q = p <;> simp [writeA, lookupA, h]
  | cons kv rest ih =>
    obtain ⟨k, v⟩ := kv
    by_cases hkq : k = q
    · subst hkq
      by_cases hkp : k = p <;> simp [writeA, lookupA, hkp]
    · by_cases hkp : k = p
      · subst hkp
        have hqp : ¬ q = k := fun h => hkq h.symm
        simp [writeA, lookupA, hkq, hqp]
      · simp [writeA, lookupA, hkq, hkp, ih]

theorem lookupFile_writeFile (fs : FS) (q p : List String) (c : FileData) :
    lookupFile (writeFile fs q c) p = if q = p then some c else lookupFile fs p := by
  simp [lookupFile, writeFile, lookupA_writeA]

theorem lookupFile_ensure_dir (fs : FS) (p q : List String) :
    lookupFile (ensure_dir fs p) q = lookupFile fs q := rfl

theorem files_ensure_dir (fs : FS) (p : List String) :
    (ensure_dir fs p).files = fs.files := rfl

/-! ### Directory-creation lemmas -/

theorem mem_addDir_of_mem {x : List String} {ds : List (List String)} (y : List String)
    (h : x ∈ ds) : x ∈ addDir ds y := by
  unfold addDir
  split
  · exact h
  · exact List.mem_append_left _ h

theorem mem_addDir_self (ds : List (List String)) (x : List String) : x ∈ addDir ds x := by
  unfold addDir
  split
  · assumption
  · exact List.mem_append_right _ (List.mem_singleton.mpr rfl)

theorem mem_foldl_addDir_of_mem {x : List String} (L : List (List String))
    {ds : List (List String)} (h : x ∈ ds) : x ∈ L.foldl addDir ds := by
  induction L generalizing ds with
  | nil => exact h
  | cons y rest ih => exact ih (mem_addDir_of_mem y h)

theorem mem_foldl_addDir_of_mem_list {x : List String} {L : List (List String)}
    (ds : List (List String)) (h : x ∈ L) : x ∈ L.foldl addDir ds := by
  induction L generalizing ds with
  | nil => cases h
  | cons y rest ih =>
    rcases List.mem_cons.mp h with hx | hx
    · subst hx
      exact mem_foldl_addDir_of_mem rest (mem_addDir_self ds x)
    · exact ih _ hx

theorem foldl_addDir_eq_of_subset {L ds : List (List String)}
    (h : ∀ x ∈ L, x ∈ ds) : L.foldl addDir ds = ds := by
  induction L with
  | nil => rfl
  | cons y rest ih =>
    have hy : y ∈ ds := h y (List.mem_cons_self _ _)
    have : addDir ds y = ds := by unfold addDir; simp [hy]
    rw [List.foldl_cons, this]
    exact ih (fun x hx => h x (List.mem_cons_of_mem _ hx))

theorem ensure_dir_idem (fs : FS) (p : List String) :
    ensure_dir (ensure_dir fs p) p = ensure_dir fs p := by
  unfold ensure_dir
  congr 1
  exact foldl_addDir_eq_of_subset (fun x hx => mem_foldl_addDir_of_mem_list fs.dirs hx)

theorem self_mem_dirChain (p : List String) (h : p ≠ []) : p ∈ dirChain p := by
  unfold dirChain
  have hlen : 0 < p.length := List.length_pos.mpr h
  refine List.mem_map.mpr ⟨p.length - 1, ?_, ?_⟩
  · exact List.mem_range.mpr (by omega)
  · rw [Nat.sub_add_cancel hlen]
    exact List.take_length p

/-! ### Fetch-worker lemmas -/

theorem download_one_dirs (env : Env) (o : List String) (d f : Bool) (fs : FS) (j : Job) :
    (download_one env o d f fs j).1.dirs = (ensure_dir fs (o ++ [j.name])).dirs := by
  simp only [download_one]
  split
  · rfl
  · split
    · rfl
    · split
      · rfl
      · split
        · split <;> rfl
        · split <;> rfl

theorem download_one_files_cases (env : Env) (o : List String) (d f : Bool) (fs : FS) (j : Job) :
    (download_one env o d f fs j).1.files = fs.files ∨
    ∃ c, (download_one env o d f fs j).1.files = writeA fs.files (targetPath o d j) c := by
  simp only [download_one]
  split
  · exact Or.inl rfl
  · split
    · exact Or.inl rfl
    · split
      · exact Or.inl rfl
      · split
        · split
          · exact Or.inr ⟨_, rfl⟩
          · exact Or.inr ⟨_, rfl⟩
        · split
          · exact Or.inr ⟨_, rfl⟩
          · exact Or.inr ⟨_, rfl⟩

theorem download_one_frame (env : Env) (o : List String) (d f : Bool) (fs : FS) (j : Job)
    (p : List String) (hp : p ≠ targetPath o d j) :
    lookupFile (download_one env o d f fs j).1 p = lookupFile fs p := by
  rcases download_one_files_cases env o d f fs j with h | ⟨c, h⟩
  · simp [lookupFile, h]
  · simp only [lookupFile, h, lookupA_writeA]
    rw [if_neg (fun hq => hp hq.symm)]

theorem download_one_skip_eq (env : Env) (o : List String) (d : Bool) (fs : FS) (j : Job)
    (h : (lookupFile fs (targetPath o d j)).isSome = true) :
    download_one env o d false fs j =
      (ensure_dir fs (o ++ [j.name]), ⟨j.name, j.path, j.dl, true, "exists, skipped"⟩) := by
  simp only [download_one]
  rw [if_pos]
  show (lookupFile fs (targetPath o d j)).isSome && !false = true
  simp [h]

theorem download_one_preserves (env : Env) (o : List String) (d : Bool) (fs : FS) (j : Job)
    (p : List String) (c : FileData) (h : lookupFile fs p = some c) :
    lookupFile (download_one env o d false fs j).1 p = some c := by
  by_cases hp : p = targetPath o d j
  · subst hp
    rw [download_one_skip_eq env o d fs j (by simp [h])]
    exact h
  · rw [download_one_frame env o d false fs j p hp]
    exact h

theorem download_one_success_exists (env : Env) (o : List String) (d : Bool) (fs : FS) (j : Job)
    (h : (download_one env o d false fs j).2.success = true) :
    (lookupFile (download_one env o d false fs j).1 (targetPath o d j)).isSome = true := by
  revert h
  simp only [download_one]
  split
  · rename_i hcond
    intro _
    simp only [Bool.not_false, Bool.and_true] at hcond
    exact hcond
  · split
    · intro h
      simp at h
    · split
      · intro h
        simp at h
      · split
        · split
          · intro _
            simp [lookupFile, writeFile, lookupA_writeA]
          · intro h
            simp at h
        · split
          · intro _
            simp [lookupFile, writeFile, lookupA_writeA]
          · intro h
            simp at h

/-! ### Scheduler lemmas -/

theorem run_jobs_length (env : Env) (o : List String) (d f : Bool) :
    ∀ (jobs : List Job) (fs : FS), (run_jobs env o d f fs jobs).2.length = jobs.length := by
  intro jobs
  induction jobs with
  | nil => intro fs; rfl
  | cons j rest ih =>
    intro fs
    simp only [run_jobs, List.length_cons, ih]

theorem run_jobs_fst_cons (env : Env) (o : List String) (d f : Bool) (fs : FS) (j : Job)
    (rest : List Job) :
    (run_jobs env o d f fs (j :: rest)).1 =
      (run_jobs env o d f (download_one env o d f fs j).1 rest).1 := rfl

theorem run_jobs_preserves (env : Env) (o : List String) (d : Bool) :
    ∀ (jobs : List Job) (fs : FS) (p : List String) (c : FileData),
      lookupFile fs p = some c → lookupFile (run_jobs env o d false fs jobs).1 p = some c := by
  intro jobs
  induction jobs with
  | nil => intro fs p c h; exact h
  | cons j rest ih =>
    intro fs p c h
    rw [run_jobs_fst_cons]
    exact ih _ p c (download_one_preserves env o d fs j p c h)

theorem run_twice_aux (env : Env) (o : List String) (d : Bool) :
    ∀ (jobs : List Job) (fs fsB : FS),
      (∀ p c, lookupFile (run_jobs env o d false fs jobs).1 p = some c →
        lookupFile fsB p = some c) →
      ∀ pr ∈ (run_jobs env o d false fs jobs).2.zip (run_jobs env o d false fsB jobs).2,
        pr.1.success = true → pr.2.success = true ∧ pr.2.message = "exists, skipped" := by
  intro jobs
  induction jobs with
  | nil =>
    intro fs fsB hsub pr hpr
    simp [run_jobs] at hpr
  | cons j rest ih =>
    intro fs fsB hsub pr hpr hsucc
    simp only [run_jobs, List.zip_cons_cons] at hpr
    rcases List.mem_cons.mp hpr with heq | htail
    · -- head pair: the job succeeded in run 1, so its target is on disk in run 2
      have hsucc1 : (download_one env o d false fs j).2.success = true := by
        rw [heq] at hsucc
        exact hsucc
      have hex := download_one_success_exists env o d fs j hsucc1
      rcases Option.isSome_iff_exists.mp hex with ⟨c, hc⟩
      have hfinal : lookupFile (run_jobs env o d false (download_one env o d false fs j).1 rest).1
          (targetPath o d j) = some c :=
        run_jobs_preserves env o d rest _ _ c hc
      have hB : lookupFile fsB (targetPath o d j) = some c := by
        apply hsub
        rw [run_jobs_fst_cons]
        exact hfinal
      have hskip := download_one_skip_eq env o d fsB j (by simp [hB])
      rw [heq]
      simp [hskip]
    · -- tail pairs: apply the induction hypothesis one job later
      refine ih (download_one env o d false fs j).1 (download_one env o d false fsB j).1
        ?_ pr htail hsucc
      intro p c hlk
      exact download_one_preserves env o d fsB j p c
        (hsub p c (by rw [run_jobs_fst_cons]; exact hlk))

/-! ### Job-compilation lemmas -/

theorem compileJobs_length (S : List (String × String)) (ds : List String) :
    (compileJobs S ds).length = S.length * ds.length := by
  induction S with
  | nil => simp [compileJobs]
  | cons np rest ih =>
    simp [compileJobs, ih, Nat.succ_mul, Nat.add_comm]

theorem mem_compileJobs {S : List (String × String)} {ds : List String} {j : Job} :
    j ∈ compileJobs S ds ↔ ∃ np ∈ S, ∃ dl ∈ ds, j = ⟨np.1, np.2, dl⟩ := by
  induction S with
  | nil => simp [compileJobs]
  | cons np rest ih =>
    simp only [compileJobs, List.mem_append, List.mem_map, ih, List.mem_cons]
    constructor
    · rintro (⟨dl, hdl, rfl⟩ | ⟨np', hnp', dl, hdl, rfl⟩)
      · exact ⟨np, Or.inl rfl, dl, hdl, rfl⟩
      · exact ⟨np', Or.inr hnp', dl, hdl, rfl⟩
    · rintro ⟨np', hnp' | hnp', dl, hdl, rfl⟩
      · exact Or.inl ⟨dl, hdl, by rw [hnp']⟩
      · exact Or.inr ⟨np', hnp', dl, hdl, rfl⟩

theorem compileJobs_nodup {S : List (String × String)} {ds : List String}
    (hS : S.Nodup) (hd : ds.Nodup) : (compileJobs S ds).Nodup := by
  induction S with
  | nil => simp [compileJobs]
  | cons np rest ih =>
    rcases List.nodup_cons.mp hS with ⟨hnp, hrest⟩
    simp only [compileJobs]
    apply List.Nodup.append
    · refine hd.map ?_
      intro a b hab
      simpa using congrArg Job.dl hab
    · exact ih hrest
    · intro j hj1 hj2
      rcases List.mem_map.mp hj1 with ⟨dl, _, rfl⟩
      rcases mem_compileJobs.mp hj2 with ⟨np', hnp', dl', _, hj⟩
      have h1 : np.1 = np'.1 := congrArg Job.name hj
      have h2 : np.2 = np'.2 := congrArg Job.path hj
      exact hnp (Prod.ext h1 h2 ▸ hnp')

/-! ### De-duplication lemmas -/

theorem dedup_loop_nodup : ∀ (xs seen uniq : List String),
    uniq.Nodup → (∀ y ∈ uniq, y ∈ seen) → (dedup_loop seen uniq xs).Nodup := by
  intro xs
  induction xs with
  | nil => intro seen uniq h _; exact h
  | cons x rest ih =>
    intro seen uniq hn hsub
    simp only [dedup_loop]
    split
    · exact ih seen uniq hn hsub
    · rename_i hx
      apply ih
      · refine List.Nodup.append hn (List.nodup_singleton x) ?_
        intro y hy hy'
        rw [List.mem_singleton.mp hy'] at hy
        exact hx (hsub x hy)
      · intro y hy
        rcases List.mem_append.mp hy with hy | hy
        · exact List.mem_cons_of_mem _ (hsub y hy)
        · rw [List.mem_singleton.mp hy]
          exact List.mem_cons_self _ _

theorem flatten_downloadables_nodup (tokens : List String) :
    (flatten_downloadables tokens).Nodup := by
  apply dedup_loop_nodup
  · exact List.nodup_nil
  · intro y hy
    cases hy

theorem expand_foldl (tokens : List String) : ∀ acc : List String,
    tokens.foldl
        (fun acc t => if pyLower t = "all" then acc ++ ALL_DOWNLOADABLES else acc ++ [t]) acc
      = acc ++ tokens.flatMap (fun t => if pyLower t = "all" then ALL_DOWNLOADABLES else [t]) := by
  induction tokens with
  | nil => intro acc; simp
  | cons t rest ih =>
    intro acc
    simp only [List.foldl_cons, List.flatMap_cons, ih]
    by_cases h : pyLower t = "all" <;> simp [h]

theorem dedup_first_filter (p : String → Bool) : ∀ l : List String,
    dedup_first (l.filter p) = (dedup_first l).filter p := by
  intro l
  induction l with
  | nil => rfl
  | cons x rest ih =>
    by_cases hx : p x = true
    · rw [List.filter_cons_of_pos hx]
      simp only [dedup_first, ih, List.filter_cons_of_pos hx, List.filter_filter]
      congr 1
      apply List.filter_congr
      intro y _
      cases p y <;> cases (y == x) <;> rfl
    · rw [List.filter_cons_of_neg (by simpa using hx)]
      simp only [dedup_first, ih, List.filter_cons_of_neg (by simpa using hx),
        List.filter_filter]
      apply List.filter_congr
      intro y _
      by_cases hyx : y = x
      · subst hyx
        rw [Bool.not_eq_true] at hx
        simp [hx]
      · simp [hyx]

theorem dedup_loop_spec : ∀ (xs seen uniq : List String),
    dedup_loop seen uniq xs =
      uniq ++ dedup_first (xs.filter (fun y => decide (y ∉ seen))) := by
  intro xs
  induction xs with
  | nil => intro seen uniq; simp [dedup_loop, dedup_first]
  | cons x rest ih =>
    intro seen uniq
    by_cases hx : x ∈ seen
    · rw [show dedup_loop seen uniq (x :: rest) = dedup_loop seen uniq rest by
        simp [dedup_loop, hx]]
      rw [ih, List.filter_cons_of_neg (by simp [hx])]
    · rw [show dedup_loop seen uniq (x :: rest) = dedup_loop (x :: seen) (uniq ++ [x]) rest by
        simp [dedup_loop, hx]]
      rw [ih, List.filter_cons_of_pos (by simp [hx])]
      have hfilter : rest.filter (fun y => decide (y ∉ x :: seen)) =
          (rest.filter (fun y => decide (y ∉ seen))).filter (fun y => !(y == x)) := by
        rw [List.filter_filter]
        apply List.filter_congr
        intro y _
        by_cases hyx : y = x
        · subst hyx
          simp
        · by_cases hys : y ∈ seen <;> simp [hyx, hys]
      rw [hfilter, dedup_first_filter]
      simp only [dedup_first]
      rw [List.append_assoc]
      rfl

theorem flatten_eq_dedup_first (tokens : List String) :
    flatten_downloadables tokens =
      dedup_first (tokens.flatMap (fun t => if pyLower t = "all" then ALL_DOWNLOADABLES else [t])) := by
  unfold flatten_downloadables
  rw [expand_foldl tokens [], dedup_loop_spec]
  simp only [List.nil_append]
  congr 1
  apply List.filter_eq_self.mpr
  intro a _
  simp

/-! ### Selector-parsing lemmas -/

theorem splitOnce_spec (sep : Char) : ∀ cs : List Char, hasChar sep cs = true →
    cs = (splitOnce sep cs).1 ++ sep :: (splitOnce sep cs).2 ∧
    hasChar sep (splitOnce sep cs).1 = false := by
  intro cs
  induction cs with
  | nil => intro h; simp [hasChar] at h
  | cons c rest ih =>
    intro h
    by_cases hc : c = sep
    · subst hc
      simp [splitOnce, hasChar]
    · have hr : hasChar sep rest = true := by
        simpa [hasChar, hc] using h
      rcases ih hr with ⟨h1, h2⟩
      constructor
      · simp only [splitOnce, if_neg hc, List.cons_append]
        exact congrArg (List.cons c) h1
      · simp [splitOnce, hasChar, hc, h2]

/-! ### Concrete oracle environments used by witnesses and counterexamples -/

/-- Remote always answers 200 with a fixed body; streams never fail. -/
def envOK : Env :=
  { net := fun _ => .ok ⟨200, [7, 8]⟩,
    textStream := fun _ => .ok "hello",
    binStream := fun _ => .ok () }

/-- The request itself raises (a connection error). -/
def envDown : Env :=
  { net := fun _ => .error "boom",
    textStream := fun _ => .ok "",
    binStream := fun _ => .ok () }

/-- Remote always answers 404. -/
def env404 : Env :=
  { net := fun _ => .ok ⟨404, []⟩,
    textStream := fun _ => .ok "",
    binStream := fun _ => .ok () }

/-- The gzip/UTF-8 decode loop raises after writing a prefix. -/
def envTextErr : Env :=
  { net := fun _ => .ok ⟨200, [31, 139]⟩,
    textStream := fun _ => .error ("pre", "bad gzip"),
    binStream := fun _ => .ok () }

/-! ### Claim theorems -/

/-- Claim C2: for every job whose target path already exists on disk and with
`force = false`, the fetch worker returns a success result with message
"exists, skipped", performs no network request (the outcome is identical under
every oracle environment), and leaves the file table — in particular the
existing file's content — unchanged. -/
theorem skip_policy_on_existing_target (env env' : Env) (o : List String) (d : Bool)
    (fs : FS) (j : Job)
    (hex : (lookupFile fs (targetPath o d j)).isSome = true) :
    download_one env o d false fs j =
      (ensure_dir fs (o ++ [j.name]), ⟨j.name, j.path, j.dl, true, "exists, skipped"⟩) ∧
    (download_one env o d false fs j).1.files = fs.files ∧
    download_one env o d false fs j = download_one env' o d false fs j := by
  have h1 := download_one_skip_eq env o d fs j hex
  have h2 := download_one_skip_eq env' o d fs j hex
  refine ⟨h1, ?_, by rw [h1, h2]⟩
  rw [h1]
  rfl

/-- Witness for C2 at a concrete filesystem and job. -/
theorem skip_policy_on_existing_target_witness :
    (download_one envDown ["o"] false false ⟨[(["o", "A", "x"], FileData.bin [1])], []⟩
        ⟨"A", "a", "x"⟩).1.files = [(["o", "A", "x"], FileData.bin [1])] :=
  (skip_policy_on_existing_target envDown envOK ["o"] false
    ⟨[(["o", "A", "x"], FileData.bin [1])], []⟩ ⟨"A", "a", "x"⟩ (by decide)).2.1

/-- Claim C8: the worker touches no path other than the deterministic target
`outdir / name / downloadable` (with the `.gz` suffix stripped exactly when
decompression is requested and the identifier ends with `.gz`); every other
path's file-table entry is unchanged. -/
theorem target_path_deterministic (env : Env) (o : List String) (d f : Bool)
    (fs : FS) (j : Job) :
    ∀ p : List String,
      p ≠ o ++ [j.name, if d && pyEndsWith j.dl ".gz" then pyDropRight j.dl 3 else j.dl] →
      lookupFile (download_one env o d f fs j).1 p = lookupFile fs p := by
  intro p hp
  exact download_one_frame env o d f fs j p (by simpa [targetPath, targetFileName] using hp)

/-- Witness for C8: with decompression on, the undecompressed name is not written. -/
theorem target_path_deterministic_witness :
    lookupFile (download_one envOK ["o"] true false ⟨[], []⟩ ⟨"A", "a", "x.txt.gz"⟩).1
      ["o", "A", "x.txt.gz"] = none :=
  (target_path_deterministic envOK ["o"] true false ⟨[], []⟩ ⟨"A", "a", "x.txt.gz"⟩
      ["o", "A", "x.txt.gz"] (by decide)).trans rfl

/-- Claim C9 counterexample: on a 404 response the job fails and writes no file,
yet the dataset directory `out/A` has been created — directory creation is not
performed "only in the course of a job that writes". -/
theorem dir_creation_counterexample :
    (download_one env404 ["out"] false false ⟨[], []⟩ ⟨"A", "a", "x"⟩).2.success = false ∧
    (download_one env404 ["out"] false false ⟨[], []⟩ ⟨"A", "a", "x"⟩).1.files = [] ∧
    ["out", "A"] ∈ (download_one env404 ["out"] false false ⟨[], []⟩ ⟨"A", "a", "x"⟩).1.dirs ∧
    (FS.mk [] []).dirs = [] := by
  decide

/-- Claim C9 (amended): directory creation is idempotent, and is performed
unconditionally at the start of every job, before the existence check and any
network request: the worker's final directory set is exactly that of the
initial `ensure_dir` and contains the dataset directory, whatever the outcome. -/
theorem dir_creation_idempotent_unconditional :
    (∀ (fs : FS) (p : List String), ensure_dir (ensure_dir fs p) p = ensure_dir fs p) ∧
    (∀ (env : Env) (o : List String) (d f : Bool) (fs : FS) (j : Job),
      (download_one env o d f fs j).1.dirs = (ensure_dir fs (o ++ [j.name])).dirs ∧
      (o ++ [j.name]) ∈ (download_one env o d f fs j).1.dirs) := by
  refine ⟨ensure_dir_idem, fun env o d f fs j => ⟨download_one_dirs env o d f fs j, ?_⟩⟩
  rw [download_one_dirs]
  unfold ensure_dir
  exact mem_foldl_addDir_of_mem_list _ (self_mem_dirChain _ (by simp))

/-- Claim C10: when the target does not exist and the response status is not
200, the worker returns `(false, "HTTP <status>")` and creates no file: the
file table is unchanged and the state differs from the input only by the
initial directory creation. -/
theorem http_error_leaves_no_file (env : Env) (o : List String) (d f : Bool)
    (fs : FS) (j : Job) (resp : HttpResp)
    (habs : lookupFile fs (targetPath o d j) = none)
    (hnet : env.net (build_url j.path j.dl) = .ok resp)
    (hst : resp.status ≠ 200) :
    download_one env o d f fs j =
      (ensure_dir fs (o ++ [j.name]),
       ⟨j.name, j.path, j.dl, false, "HTTP " ++ toString resp.status⟩) ∧
    (download_one env o d f fs j).1.files = fs.files := by
  have hcond : ((lookupFile (ensure_dir fs (o ++ [j.name])) (targetPath o d j)).isSome && !f)
      = false := by
    rw [lookupFile_ensure_dir, habs]
    rfl
  have key : download_one env o d f fs j =
      (ensure_dir fs (o ++ [j.name]),
       ⟨j.name, j.path, j.dl, false, "HTTP " ++ toString resp.status⟩) := by
    simp [download_one, hnet, hcond, hst]
  refine ⟨key, ?_⟩
  rw [key]
  rfl

/-- Witness for C10 at a 404 response. -/
theorem http_error_leaves_no_file_witness :
    (download_one env404 ["o"] false false ⟨[], []⟩ ⟨"A", "a", "x"⟩).2 =
      ⟨"A", "a", "x", false, "HTTP 404"⟩ := by
  have h := (http_error_leaves_no_file env404 ["o"] false false ⟨[], []⟩ ⟨"A", "a", "x"⟩
    ⟨404, []⟩ (by decide) rfl (by decide)).1
  rw [h]
  rfl

/-- Claim C3: every exception raised by the request, the streaming decode or
the write loop is caught inside the worker and converted into a failure result
carrying the exception's description, and no job-level error shrinks the
batch: the scheduler always yields exactly one result per job. -/
theorem worker_isolates_exceptions (env : Env) (o : List String) (d f : Bool) :
    (∀ (jobs : List Job) (fs : FS), (run_jobs env o d f fs jobs).2.length = jobs.length) ∧
    (∀ (fs : FS) (j : Job) (e : String),
      ((lookupFile fs (targetPath o d j)).isSome && !f) = false →
      env.net (build_url j.path j.dl) = .error e →
      (download_one env o d f fs j).2 = ⟨j.name, j.path, j.dl, false, e⟩) ∧
    (∀ (fs : FS) (j : Job) (resp : HttpResp) (pw e : String),
      ((lookupFile fs (targetPath o d j)).isSome && !f) = false →
      env.net (build_url j.path j.dl) = .ok resp → resp.status = 200 →
      (d && pyEndsWith j.dl ".gz") = true →
      env.textStream resp.body = .error (pw, e) →
      (download_one env o d f fs j).2 = ⟨j.name, j.path, j.dl, false, e⟩) ∧
    (∀ (fs : FS) (j : Job) (resp : HttpResp) (e : String) (pw : List Nat),
      ((lookupFile fs (targetPath o d j)).isSome && !f) = false →
      env.net (build_url j.path j.dl) = .ok resp → resp.status = 200 →
      (d && pyEndsWith j.dl ".gz") = false →
      env.binStream resp.body = .error (e, pw) →
      (download_one env o d f fs j).2 = ⟨j.name, j.path, j.dl, false, e⟩) := by
  refine ⟨fun jobs fs => run_jobs_length env o d f jobs fs, ?_, ?_, ?_⟩
  · intro fs j e hskip hnet
    have hcond : ((lookupFile (ensure_dir fs (o ++ [j.name])) (targetPath o d j)).isSome && !f)
        = false := by
      rw [lookupFile_ensure_dir]
      exact hskip
    simp [download_one, hnet, hcond]
  · intro fs j resp pw e hskip hnet hst hgz htxt
    have hcond : ((lookupFile (ensure_dir fs (o ++ [j.name])) (targetPath o d j)).isSome && !f)
        = false := by
      rw [lookupFile_ensure_dir]
      exact hskip
    simp [download_one, hnet, hcond, hst, hgz, htxt]
  · intro fs j resp e pw hskip hnet hst hgz hbin
    have hcond : ((lookupFile (ensure_dir fs (o ++ [j.name])) (targetPath o d j)).isSome && !f)
        = false := by
      rw [lookupFile_ensure_dir]
      exact hskip
    simp [download_one, hnet, hcond, hst, hgz, hbin]

/-- Witness for C3: a connection error becomes a failure result with the
exception text as message. -/
theorem worker_isolates_exceptions_witness :
    (download_one envDown ["o"] false false ⟨[], []⟩ ⟨"A", "a", "x"⟩).2 =
      ⟨"A", "a", "x", false, "boom"⟩ :=
  (worker_isolates_exceptions envDown ["o"] false false).2.1 ⟨[], []⟩ ⟨"A", "a", "x"⟩ "boom"
    (by decide) rfl

/-- Claim C6: expanding downloadable tokens replaces each case-insensitive
"all" with the full registry in registry order and de-duplicates the combined
list keeping first occurrences; in particular `["all"]` (and `["ALL"]`) yield
exactly the duplicate-free registry, and an explicit token also in the
registry stays at its first position. -/
theorem expandDownloadables_spec :
    (∀ tokens : List String,
      flatten_downloadables tokens =
        dedup_first (tokens.flatMap
          (fun t => if pyLower t = "all" then ALL_DOWNLOADABLES else [t]))) ∧
    flatten_downloadables ["all"] = ALL_DOWNLOADABLES ∧
    flatten_downloadables ["ALL"] = ALL_DOWNLOADABLES ∧
    ALL_DOWNLOADABLES.Nodup ∧
    flatten_downloadables ["gene_attribute_matrix.txt.gz", "all"] = ALL_DOWNLOADABLES :=
  ⟨flatten_eq_dedup_first, by decide, by decide, by decide, by decide⟩

/-- Claim C7 counterexample: a token with surrounding whitespace, no separator
and no registry match resolves to the stripped pair, not `(token, token)` as
claimed. -/
theorem resolver_returns_stripped_counterexample :
    hasChar '\t' (" x " : String).toList = false ∧
    hasChar '=' (" x " : String).toList = false ∧
    mapLookup " x " DATASET_MAP = none ∧
    parse_dataset_item " x " = ("x", "x") ∧
    parse_dataset_item " x " ≠ (" x ", " x ") := by
  decide

/-- Claim C7 (amended): selector resolution strips whitespace: a token with a
tab (checked first) or `=` is split at the first such separator into the
whitespace-stripped `(name, path)`; otherwise, with `t` the stripped token,
it resolves to `(registryName, t)` when `t` is a known key and `(t, t)`
otherwise. -/
theorem resolver_cases (s : String) :
    (hasChar '\t' s.toList = true →
      ∃ a b : List Char, s.toList = a ++ '\t' :: b ∧ hasChar '\t' a = false ∧
        parse_dataset_item s = (pyStrip (String.mk a), pyStrip (String.mk b))) ∧
    (hasChar '\t' s.toList = false → hasChar '=' s.toList = true →
      ∃ a b : List Char, s.toList = a ++ '=' :: b ∧ hasChar '=' a = false ∧
        parse_dataset_item s = (pyStrip (String.mk a), pyStrip (String.mk b))) ∧
    (hasChar '\t' s.toList = false → hasChar '=' s.toList = false →
      parse_dataset_item s =
        ((mapLookup (pyStrip s) DATASET_MAP).getD (pyStrip s), pyStrip s)) := by
  refine ⟨?_, ?_, ?_⟩
  · intro htab
    rcases splitOnce_spec '\t' s.toList htab with ⟨h1, h2⟩
    refine ⟨(splitOnce '\t' s.toList).1, (splitOnce '\t' s.toList).2, h1, h2, ?_⟩
    simp only [String.toList] at htab
    simp [parse_dataset_item, String.toList, htab]
  · intro htab heq
    rcases splitOnce_spec '=' s.toList heq with ⟨h1, h2⟩
    refine ⟨(splitOnce '=' s.toList).1, (splitOnce '=' s.toList).2, h1, h2, ?_⟩
    simp only [String.toList] at htab heq
    simp [parse_dataset_item, String.toList, htab, heq]
  · intro htab heq
    simp only [String.toList] at htab heq
    cases h : mapLookup (pyStrip s) DATASET_MAP <;>
      simp [parse_dataset_item, String.toList, htab, heq, h]

/-- Witness for C7 at a known registry key. -/
theorem resolver_cases_witness :
    parse_dataset_item "gtextissue" =
      ((mapLookup (pyStrip "gtextissue") DATASET_MAP).getD (pyStrip "gtextissue"),
       pyStrip "gtextissue") :=
  (resolver_cases "gtextissue").2.2 (by decide) (by decide)

/-- Claim C1 counterexample: with the duplicated selector list
`[("a","a"), ("a","a")]` and downloadables `["x"]` the compiled job list has
2 jobs, not `|dedup(S)| x |dedup(D)| = 1`; its `(selector, downloadable)`
pairs are not unique; and both jobs write the same target file. -/
theorem compileJobs_dedup_counterexample :
    (compileJobs [("a", "a"), ("a", "a")] (flatten_downloadables ["x"])).length = 2 ∧
    (dedup_first [("a", "a"), ("a", "a")]).length *
      (dedup_first (flatten_downloadables ["x"])).length = 1 ∧
    ¬ (compileJobs [("a", "a"), ("a", "a")] (flatten_downloadables ["x"])).Nodup ∧
    (compileJobs [("a", "a"), ("a", "a")] (flatten_downloadables ["x"])).map
        (targetPath ["o"] false) = [["o", "a", "x"], ["o", "a", "x"]] := by
  decide

/-- Claim C1 (amended): compiling jobs over selectors `S` and raw downloadable
tokens `T` yields exactly `|S| x |dedup_preserve_order(expand(T))|` jobs
(selectors are not de-duplicated), and when `S` itself contains no duplicate
selector pair, every job's `(selector, downloadable)` pair is unique. -/
theorem compileJobs_count_and_unique (S : List (String × String)) (T : List String) :
    (compileJobs S (flatten_downloadables T)).length =
      S.length * (flatten_downloadables T).length ∧
    (S.Nodup → (compileJobs S (flatten_downloadables T)).Nodup) :=
  ⟨compileJobs_length S _, fun hS => compileJobs_nodup hS (flatten_downloadables_nodup T)⟩

/-- Witness for C1 on two distinct selectors and one downloadable. -/
theorem compileJobs_count_and_unique_witness :
    (compileJobs [("A", "a"), ("B", "b")] (flatten_downloadables ["x"])).length = 2 ∧
    (compileJobs [("A", "a"), ("B", "b")] (flatten_downloadables ["x"])).Nodup :=
  ⟨((compileJobs_count_and_unique [("A", "a"), ("B", "b")] ["x"]).1).trans (by decide),
   (compileJobs_count_and_unique [("A", "a"), ("B", "b")] ["x"]).2 (by decide)⟩

/-- Claim C5: the download command returns non-zero exactly when the dataset
token list is empty, or the downloadable set after expansion is empty, or
some job failed; and it returns 0 exactly when compilation succeeded and
every job succeeded. -/
theorem exit_status_contract (env : Env) (dT tT : List String) (o : List String)
    (d f : Bool) (fs : FS) :
    ((cmd_download env dT tT o d f fs).2 ≠ 0 ↔
      (dT = [] ∨ flatten_downloadables tT = [] ∨
       ∃ r ∈ (run_jobs env o d f (ensure_dir fs o)
          (compileJobs (dT.map parse_dataset_item) (flatten_downloadables tT))).2,
         r.success = false)) ∧
    ((cmd_download env dT tT o d f fs).2 = 0 ↔
      (dT ≠ [] ∧ flatten_downloadables tT ≠ [] ∧
       ∀ r ∈ (run_jobs env o d f (ensure_dir fs o)
          (compileJobs (dT.map parse_dataset_item) (flatten_downloadables tT))).2,
         r.success = true)) := by
  by_cases h1 : (dT.map parse_dataset_item).isEmpty = true
  · have hdT : dT = [] := by simpa using h1
    simp [cmd_download, h1, hdT]
  · have hdT : dT ≠ [] := by
      intro h
      rw [h] at h1
      simp at h1
    by_cases h2 : (flatten_downloadables tT).isEmpty = true
    · have hfT : flatten_downloadables tT = [] := by simpa using h2
      simp [cmd_download, h1, h2, hdT, hfT]
    · have hfT : flatten_downloadables tT ≠ [] := by simpa using h2
      by_cases h3 : (run_jobs env o d f (ensure_dir fs o)
          (compileJobs (dT.map parse_dataset_item) (flatten_downloadables tT))).2.any
            (fun r => !r.success) = true
      · have hexit : (cmd_download env dT tT o d f fs).2 = 1 := by
          simp [cmd_download, h1, h2, h3]
        rw [List.any_eq_true] at h3
        rcases h3 with ⟨r, hr, hrs⟩
        rw [hexit]
        constructor
        · exact iff_of_true (by decide) (Or.inr (Or.inr ⟨r, hr, by simpa using hrs⟩))
        · refine iff_of_false (by decide) ?_
          rintro ⟨-, -, hall⟩
          have := hall r hr
          simp [this] at hrs
      · have hexit : (cmd_download env dT tT o d f fs).2 = 0 := by
          simp [cmd_download, h1, h2, h3]
        rw [Bool.not_eq_true, List.any_eq_false] at h3
        rw [hexit]
        constructor
        · refine iff_of_false (by simp) ?_
          rintro (h | h | ⟨r, hr, hrs⟩)
          · exact hdT h
          · exact hfT h
          · have := h3 r hr
            simp [hrs] at this
        · refine iff_of_true rfl ⟨hdT, hfT, ?_⟩
          intro r hr
          have := h3 r hr
          simpa using this

/-- Witness for C5: one selector, one downloadable, a healthy remote — exit 0. -/
theorem exit_status_contract_witness :
    (cmd_download envOK ["A=a"] ["x"] ["o"] false false ⟨[], []⟩).2 = 0 :=
  ((exit_status_contract envOK ["A=a"] ["x"] ["o"] false false ⟨[], []⟩).2).mpr
    (by refine ⟨by decide, by decide, ?_⟩; decide)

/-- Claim C4: with `force = false`, running the whole batch a second time over
the filesystem produced by the first run turns every job that succeeded in the
first run into `(true, "exists, skipped")`, and no file already present after
the first run has its content changed by the second run. -/
theorem batch_idempotent (env : Env) (o : List String) (d : Bool) (fs0 : FS)
    (jobs : List Job) :
    (∀ pr ∈ (run_jobs env o d false fs0 jobs).2.zip
        (run_jobs env o d false (run_jobs env o d false fs0 jobs).1 jobs).2,
      pr.1.success = true → pr.2.success = true ∧ pr.2.message = "exists, skipped") ∧
    (∀ (p : List String) (c : FileData),
      lookupFile (run_jobs env o d false fs0 jobs).1 p = some c →
      lookupFile (run_jobs env o d false (run_jobs env o d false fs0 jobs).1 jobs).1 p
        = some c) := by
  constructor
  · exact run_twice_aux env o d jobs fs0 (run_jobs env o d false fs0 jobs).1
      (fun p c h => h)
  · intro p c h
    exact run_jobs_preserves env o d jobs _ p c h

/-- Witness for C4: a job that downloaded in run one is skipped in run two. -/
theorem batch_idempotent_witness :
    (DLResult.mk "A" "a" "x" true "exists, skipped").success = true ∧
    (DLResult.mk "A" "a" "x" true "exists, skipped").message = "exists, skipped" :=
  (batch_idempotent envOK ["o"] false ⟨[], []⟩ [⟨"A", "a", "x"⟩]).1
    (⟨"A", "a", "x", true, "ok"⟩, ⟨"A", "a", "x", true, "exists, skipped"⟩)
    (by decide) (by decide)
